import Mathlib

/-
Verification of the supervised single-worker task channel implemented in
src/app/burn_out/multiprocess_worker/__init__.py.

The Python module manages one worker process per immutable WorkerHandle:

  class WorkerHandle(NamedTuple):
      worker_func; task_queue; result_queue; process

  create_worker / send_task / await_result / send_and_await /
  close_worker / cancel_worker, plus the example worker loop simple_worker.

Two complementary shallow embeddings are used.

1. A poll-schedule model of the `await_result` loop.  The Python loop is

       while worker.process.is_alive():
           try:
               result = await loop.run_in_executor(None, worker.result_queue.get, True, 0.1)
               return worker, result
           except Exception:
               if timeout is not None and start_time is not None:
                   if asyncio.get_event_loop().time() - start_time > timeout:
                       return worker, None
               continue
       return worker, None

   Each loop iteration observes (a) the `is_alive()` answer, (b) the outcome
   of the bounded `result_queue.get(True, 0.1)` read (a result, the
   queue.Empty timeout, or any other exception raised by the queue
   primitive -- the bare `except Exception:` treats the last two alike),
   and (c) the event-loop clock at the timeout check.  A `Poll` records one
   iteration's observations and `await_result` folds the loop over a list
   of such observations.  The value `none` of the outer option means the
   loop consumed the whole schedule without returning (still polling);
   `some r` means the call returned `r` (where `r : Option String` mirrors
   the Python return of a result or `None`).  The code never raises to the
   caller: every branch of the translated loop returns a value, mirroring
   the blanket `except Exception:` around the only fallible call.

2. An explicit-state lifecycle model (further below) for create_worker,
   send_task, close_worker and cancel_worker, with a process/queue
   allocator, plus a model of the simple_worker loop body whose execution
   outcome (normal result, ordinary exception, or KeyboardInterrupt /
   SystemExit interruption) is supplied by an oracle, since any point of
   the Python body can be interrupted asynchronously.

Task and result payloads are modelled as Strings (simple_worker computes
the string "Processed: <task>"); the inbound-queue sentinel is `none` in
`Option String`.
-/

namespace MultiprocessWorker

/-- Outcome of one bounded `result_queue.get(True, 0.1)` attempt:
a result arrived within the slice, the slice elapsed empty
(`queue.Empty`), or the queue primitive itself raised some other
exception. -/
inductive GetOutcome where
  | got (r : String)
  | empty
  | qfail
  deriving DecidableEq

/-- Observations available to one iteration of the `await_result` loop:
the `is_alive()` answer at the loop head, the outcome of the bounded
queue read, and the event-loop clock value at the timeout check. -/
structure Poll where
  alive : Bool
  get : GetOutcome
  now : Nat
  deriving DecidableEq

/-- `True` exactly when the Python guard
`timeout is not None and time() - start_time > timeout` holds
(over exact arithmetic, `now - start > t` is `start + t < now`). -/
def pollTimesOut (timeout : Option Nat) (start : Nat) (p : Poll) : Bool :=
  match timeout with
  | some t => decide (start + t < p.now)
  | none => false

/-- Does a `GetOutcome` carry a result? -/
def isGot : GetOutcome → Bool
  | .got _ => true
  | .empty => false
  | .qfail => false

/-- The `await_result` polling loop over a schedule of per-iteration
observations.  Returns `some r` when the Python call returns `r`
(`r : Option String`, `none` standing for Python `None`), and `none` when
the schedule is exhausted with the loop still polling.  The `.empty` and
`.qfail` branches are identical because the Python code handles both with
the single `except Exception:` clause. -/
def await_result (timeout : Option Nat) (start : Nat) :
    List Poll → Option (Option String)
  | [] => none
  | p :: ps =>
    if p.alive then
      match p.get with
      | .got r => some (some r)
      | .empty =>
        if pollTimesOut timeout start p then some none
        else await_result timeout start ps
      | .qfail =>
        if pollTimesOut timeout start p then some none
        else await_result timeout start ps
    else some none

/-- Outcome of executing the body of the worker loop on one task:
a computed result was pushed, a non-interruption exception with message
`m` was raised, or a `KeyboardInterrupt` / `SystemExit` interruption
arrived during the body. -/
inductive ExecOutcome where
  | ok (r : String)
  | exn (m : String)
  | intr
  deriving DecidableEq

/-- How the worker loop stopped consuming its inbound trace. -/
inductive WorkerExit where
  | sentinelStop
  | interruptStop
  | blocked
  deriving DecidableEq

/-- The `simple_worker` loop

      for task in iter(task_queue.get, None):
          try:
              result = f"Processed: {task}"
              result_queue.put(result)
          except (KeyboardInterrupt, SystemExit):
              break
          except Exception as e:
              result_queue.put(f"Error: {e}")

run over the trace of inbound-queue items (`none` is the sentinel).
`exec` gives the outcome of one body execution: since any point of the
Python body may be interrupted asynchronously, the outcome is an oracle
parameter; the uninterrupted behaviour is `simple_exec` below.  Returns
the results pushed to the outbound queue, in order, and how the loop
stopped: the sentinel ends it, an interruption ends it at once with
nothing pushed for that task, and an exhausted trace leaves it blocked on
the next `get`.  The other worker loop of the repository, video_worker,
is modelled separately by `video_worker_loop` below: unlike this loop it
can consume a task and push nothing for it. -/
def simple_worker_loop (exec : String → ExecOutcome) :
    List (Option String) → List String × WorkerExit
  | [] => ([], WorkerExit.blocked)
  | none :: _ => ([], WorkerExit.sentinelStop)
  | some t :: rest =>
    match exec t with
    | .ok r =>
      (r :: (simple_worker_loop exec rest).1, (simple_worker_loop exec rest).2)
    | .exn m =>
      (("Error: " ++ m) :: (simple_worker_loop exec rest).1,
        (simple_worker_loop exec rest).2)
    | .intr => ([], WorkerExit.interruptStop)

/-- The result `simple_worker` computes for a task when left
uninterrupted: the Python f-string `f"Processed: {task}"`. -/
def processed_result (t : String) : String := "Processed: " ++ t

/-- The uninterrupted execution outcome of the `simple_worker` body. -/
def simple_exec (t : String) : ExecOutcome := ExecOutcome.ok (processed_result t)

/-
Lifecycle model.  `create_worker`, `send_task`, `close_worker` and
`cancel_worker` act on operating-system state: which spawned processes
are currently alive and what each queue holds.  `MPState` is that state,
with `nextP` / `nextQ` fresh-allocation counters for process identifiers
and queue identifiers.  `close_worker` and `cancel_worker` both wait on
the process with a 1.0-second bounded join whose success depends on
real-time behaviour, so each takes a Boolean saying whether the process
was gone when `is_alive()` was re-checked after the join; the visible
actions they perform are recorded as an event list.  Delivery of
terminate/kill signals (the worker processes are daemonized and install
no handlers) is modelled as making the process not alive.
-/

/-- Operating-system state shared by the lifecycle operations: liveness
of spawned processes, contents of every queue (`none` items are the
shutdown sentinel), and fresh-allocation counters. -/
structure MPState where
  nextP : Nat
  nextQ : Nat
  alive : Nat → Bool
  queues : Nat → List (Option String)

/-- The immutable `WorkerHandle` NamedTuple: entry-point function
(opaque, identified by a number), the two queue identifiers, and the
process identifier. -/
structure WorkerHandle where
  worker_func : Nat
  task_queue : Nat
  result_queue : Nat
  process : Nat
  deriving DecidableEq

/-- `worker.process.is_alive()`. -/
def isAlive (s : MPState) (pid : Nat) : Bool := s.alive pid

/-- `queue.put(m)`: append `m` to queue `q`. -/
def enqueue (q : Nat) (m : Option String) (s : MPState) : MPState :=
  { s with queues := fun i => if i = q then s.queues i ++ [m] else s.queues i }

/-- Process `pid` is no longer alive. -/
def setDead (pid : Nat) (s : MPState) : MPState :=
  { s with alive := fun p => if p = pid then false else s.alive p }

/-- Visible actions of the lifecycle operations. -/
inductive Ev where
  | spawned (pid : Nat)
  | sentinelSent (q : Nat)
  | joinWait (pid : Nat)
  | terminated (pid : Nat)
  | killed (pid : Nat)
  deriving DecidableEq

/-- `create_worker(worker_func)`: two fresh queues, a fresh daemon
process started on them, and a handle packaging all four. -/
def create_worker (wf : Nat) (s : MPState) : WorkerHandle × MPState :=
  (⟨wf, s.nextQ, s.nextQ + 1, s.nextP⟩,
    { nextP := s.nextP + 1
      nextQ := s.nextQ + 2
      alive := fun p => if p = s.nextP then true else s.alive p
      queues := fun q => if q = s.nextQ ∨ q = s.nextQ + 1 then [] else s.queues q })

/-- `send_task(worker, task)`: restart via `create_worker` if the process
is dead, then put the task on the (possibly new) task queue and return
the (possibly new) handle. -/
def send_task (w : WorkerHandle) (task : String) (s : MPState) :
    WorkerHandle × MPState :=
  if isAlive s w.process then
    (w, enqueue w.task_queue (some task) s)
  else
    ((create_worker w.worker_func s).1,
      enqueue (create_worker w.worker_func s).1.task_queue (some task)
        (create_worker w.worker_func s).2)

/-- Sequential `send_task` calls for a list of tasks, rebinding the
handle each time as the API requires. -/
def send_tasks (w : WorkerHandle) (ts : List String) (s : MPState) :
    WorkerHandle × MPState :=
  match ts with
  | [] => (w, s)
  | t :: rest => send_tasks (send_task w t s).1 rest (send_task w t s).2

/-- `close_worker(worker)`: if alive, put the `None` sentinel, join with
a 1.0s bound, and terminate if still alive afterwards
(`exitsWithinGrace` says whether the process was gone at that re-check);
if already dead, do nothing at all. -/
def close_worker (w : WorkerHandle) (exitsWithinGrace : Bool) (s : MPState) :
    MPState × List Ev :=
  if isAlive s w.process then
    if exitsWithinGrace then
      (setDead w.process (enqueue w.task_queue none s),
        [Ev.sentinelSent w.task_queue, Ev.joinWait w.process])
    else
      (setDead w.process (enqueue w.task_queue none s),
        [Ev.sentinelSent w.task_queue, Ev.joinWait w.process,
          Ev.terminated w.process])
  else (s, [])

/-- `cancel_worker(worker)`: if alive, terminate, join with a 1.0s bound,
and kill if still alive afterwards (`diesWithinGrace` says whether
termination completed within the grace period); in every case return a
brand-new handle from `create_worker` on the same entry point. -/
def cancel_worker (w : WorkerHandle) (diesWithinGrace : Bool) (s : MPState) :
    WorkerHandle × MPState × List Ev :=
  if isAlive s w.process then
    if diesWithinGrace then
      ((create_worker w.worker_func (setDead w.process s)).1,
        (create_worker w.worker_func (setDead w.process s)).2,
        [Ev.terminated w.process, Ev.joinWait w.process,
          Ev.spawned (create_worker w.worker_func (setDead w.process s)).1.process])
    else
      ((create_worker w.worker_func (setDead w.process s)).1,
        (create_worker w.worker_func (setDead w.process s)).2,
        [Ev.terminated w.process, Ev.joinWait w.process, Ev.killed w.process,
          Ev.spawned (create_worker w.worker_func (setDead w.process s)).1.process])
  else
    ((create_worker w.worker_func s).1, (create_worker w.worker_func s).2,
      [Ev.spawned (create_worker w.worker_func s).1.process])

/-- A handle is well formed for a state when its process and queue
identifiers were previously allocated there, as holds for every handle
produced by `create_worker`. -/
abbrev WFHandle (s : MPState) (w : WorkerHandle) : Prop :=
  w.process < s.nextP ∧ w.task_queue < s.nextQ ∧ w.result_queue < s.nextQ

/-- `drain n q`: the results of `n` successive `await_result` calls
against a live worker whose outbound queue holds `q`, each call taking
the queue head (the FIFO read the queue primitive provides); the unused
empty-queue case stands for a call that would keep polling. -/
def drain (n : Nat) (q : List String) : List (Option String) × List String :=
  match n, q with
  | 0, rest => ([], rest)
  | _ + 1, [] => ([], [])
  | n + 1, r :: rest => (some r :: (drain n rest).1, (drain n rest).2)

/-
Concrete fixtures used by the witnesses: a state with one spawned,
still-alive process (identifier 0) owning queues 0 and 1; the same state
with that process dead; the handle bound to them; and sample polls.
-/

/-- State after one `create_worker` whose process is still alive. -/
def s0 : MPState :=
  { nextP := 1
    nextQ := 2
    alive := fun p => if p = 0 then true else false
    queues := fun _ => [] }

/-- State after one `create_worker` whose process has since died. -/
def sD : MPState :=
  { nextP := 1
    nextQ := 2
    alive := fun _ => false
    queues := fun _ => [] }

/-- The handle produced by that first `create_worker`. -/
def w0 : WorkerHandle := ⟨7, 0, 1, 0⟩

/-- A poll slice that found the process alive and the queue empty. -/
def pollLive : Poll := ⟨true, GetOutcome.empty, 0⟩

/-- A poll slice that found the process dead while a result it pushed
before dying is still sitting in the outbound queue. -/
def pollDead : Poll := ⟨false, GetOutcome.got ("stale"), 5⟩

/-- A sample task payload. -/
def tsk0 : String := "hello"

/-- A task-execution oracle exercising all three body outcomes: task
`"boom"` raises an ordinary exception, task `"stop"` is hit by an
interruption, and every other task completes normally. -/
def mixed_exec : String → ExecOutcome := fun t =>
  if t = "boom" then ExecOutcome.exn ("boom")
  else if t = "stop" then ExecOutcome.intr
  else ExecOutcome.ok (processed_result t)

/-- What C3 asserts of `send_task`.  Dead process: the returned handle is
a fresh `create_worker` handle — same entry point, a process identifier
never allocated before (hence differing from the old one), two queue
identifiers never allocated before, a live process — and the task is the
sole item on the new inbound queue, the new outbound queue being empty.
Live process: the very same handle comes back, the task is appended to
its inbound queue, and no process's liveness changes. -/
def send_task_restart_prop (w : WorkerHandle) (task : String) (s : MPState) : Prop :=
  (isAlive s w.process = false →
    (send_task w task s).1.worker_func = w.worker_func ∧
    (send_task w task s).1.process = s.nextP ∧
    (send_task w task s).1.process ≠ w.process ∧
    (send_task w task s).1.task_queue = s.nextQ ∧
    (send_task w task s).1.result_queue = s.nextQ + 1 ∧
    (send_task w task s).1.task_queue ≠ w.task_queue ∧
    (send_task w task s).1.result_queue ≠ w.result_queue ∧
    isAlive (send_task w task s).2 (send_task w task s).1.process = true ∧
    (send_task w task s).2.queues (send_task w task s).1.task_queue = [some task] ∧
    (send_task w task s).2.queues (send_task w task s).1.result_queue = []) ∧
  (isAlive s w.process = true →
    (send_task w task s).1 = w ∧
    (send_task w task s).2.queues w.task_queue =
      s.queues w.task_queue ++ [some task] ∧
    ∀ p, isAlive (send_task w task s).2 p = isAlive s p)

/-- What C5 asserts of `cancel_worker`: whether or not the old process
was alive, the returned handle carries the same entry point, a
never-before-allocated (hence different) process identifier, two fresh
empty queues, and a live process; when the old process was alive it is
terminated (with a bounded join, escalating to kill exactly when
termination did not complete within the grace period) and ends up not
alive; when it was already dead the only action is spawning the
replacement. -/
def cancel_worker_prop (w : WorkerHandle) (g : Bool) (s : MPState) : Prop :=
  (cancel_worker w g s).1.worker_func = w.worker_func ∧
  (cancel_worker w g s).1.process = s.nextP ∧
  (cancel_worker w g s).1.process ≠ w.process ∧
  (cancel_worker w g s).1.task_queue = s.nextQ ∧
  (cancel_worker w g s).1.result_queue = s.nextQ + 1 ∧
  (cancel_worker w g s).1.task_queue ≠ w.task_queue ∧
  (cancel_worker w g s).1.result_queue ≠ w.result_queue ∧
  isAlive (cancel_worker w g s).2.1 (cancel_worker w g s).1.process = true ∧
  (cancel_worker w g s).2.1.queues (cancel_worker w g s).1.task_queue = [] ∧
  (cancel_worker w g s).2.1.queues (cancel_worker w g s).1.result_queue = [] ∧
  (isAlive s w.process = true →
    isAlive (cancel_worker w g s).2.1 w.process = false ∧
    Ev.terminated w.process ∈ (cancel_worker w g s).2.2 ∧
    Ev.joinWait w.process ∈ (cancel_worker w g s).2.2 ∧
    (g = false → Ev.killed w.process ∈ (cancel_worker w g s).2.2) ∧
    (g = true → Ev.killed w.process ∉ (cancel_worker w g s).2.2)) ∧
  (isAlive s w.process = false →
    (cancel_worker w g s).2.2 = [Ev.spawned (cancel_worker w g s).1.process])

/-- What C6 asserts of `close_worker`.  Alive process: the `None`
sentinel is put on the inbound queue, a bounded join waits for voluntary
exit, and the process is force-terminated exactly when it has not exited
by the deadline.  Dead process: the call does nothing at all — state
unchanged, no sentinel, no waiting, no termination — and, the function
being total, it returns rather than raising. -/
def close_worker_prop (w : WorkerHandle) (g : Bool) (s : MPState) : Prop :=
  (isAlive s w.process = true →
    (close_worker w g s).1.queues w.task_queue = s.queues w.task_queue ++ [none] ∧
    isAlive (close_worker w g s).1 w.process = false ∧
    (g = true → (close_worker w g s).2 =
      [Ev.sentinelSent w.task_queue, Ev.joinWait w.process]) ∧
    (g = false → (close_worker w g s).2 =
      [Ev.sentinelSent w.task_queue, Ev.joinWait w.process,
        Ev.terminated w.process])) ∧
  (isAlive s w.process = false → close_worker w g s = (s, []))

/-- C1: if the worker process has died while a task is outstanding (so no
poll slice yields a result), `await_result` returns `(handle, None)`: the
conclusion holds whatever follows the first dead observation in the
schedule, so the call decides no later than the poll slice that observes
the death, and the translated loop returns a value on every branch (the
Python `except Exception:` around the only fallible call means no
exception reaches the caller). -/
theorem await_result_death_returns_none (timeout : Option Nat) (start : Nat)
    (p : Poll) (rest : List Poll) :
    ∀ pre : List Poll,
      (∀ q ∈ pre, q.alive = true ∧ isGot q.get = false) →
      p.alive = false →
      await_result timeout start (pre ++ p :: rest) = some none := by
  intro pre
  induction pre with
  | nil =>
    intro _ hp
    simp [await_result, hp]
  | cons q pre ih =>
    intro hpre hp
    have hq := hpre q (by simp)
    have hrest : ∀ x ∈ pre, x.alive = true ∧ isGot x.get = false :=
      fun x hx => hpre x (by simp [hx])
    obtain ⟨hqa, hqg⟩ := hq
    cases hg : q.get with
    | got r => rw [hg] at hqg; simp [isGot] at hqg
    | empty =>
      simp only [List.cons_append, await_result, hqa, if_true, hg]
      split
      · rfl
      · exact ih hrest hp
    | qfail =>
      simp only [List.cons_append, await_result, hqa, if_true, hg]
      split
      · rfl
      · exact ih hrest hp

/-- C1 witness: one empty live poll followed by a dead observation. -/
theorem await_result_death_returns_none_witness :
    (∀ q ∈ [pollLive], q.alive = true ∧ isGot q.get = false) ∧
    pollDead.alive = false ∧
    await_result none 0 ([pollLive] ++ pollDead :: []) = some none :=
  ⟨by decide, by decide,
    await_result_death_returns_none none 0 pollDead [] [pollLive] (by decide)
      (by decide)⟩

/-- C2: for a task `T` that a live worker completes normally with result
`R` (so the loop body pushes exactly `R` to the outbound queue), once the
bounded queue read yields that pushed `R` at a live poll — after any
number of live poll slices that were empty and did not trip a caller
timeout — `await_result` returns `(handle, R)`. -/
theorem await_result_returns_worker_result (exec : String → ExecOutcome)
    (T R : String) (timeout : Option Nat) (start : Nat) (p : Poll)
    (rest : List Poll) (hexec : exec T = ExecOutcome.ok R)
    (hpa : p.alive = true) (hpg : p.get = GetOutcome.got R) :
    ∀ pre : List Poll,
      (∀ q ∈ pre, q.alive = true ∧ isGot q.get = false ∧
        pollTimesOut timeout start q = false) →
      (simple_worker_loop exec [some T]).1 = [R] ∧
      await_result timeout start (pre ++ p :: rest) = some (some R) := by
  intro pre
  induction pre with
  | nil =>
    intro _
    refine ⟨by simp [simple_worker_loop, hexec], ?_⟩
    simp [await_result, hpa, hpg]
  | cons q pre ih =>
    intro hpre
    have hq := hpre q (by simp)
    have hrest : ∀ x ∈ pre, x.alive = true ∧ isGot x.get = false ∧
        pollTimesOut timeout start x = false :=
      fun x hx => hpre x (by simp [hx])
    obtain ⟨hqa, hqg, hqt⟩ := hq
    refine ⟨by simp [simple_worker_loop, hexec], ?_⟩
    cases hg : q.get with
    | got r => rw [hg] at hqg; simp [isGot] at hqg
    | empty =>
      simp only [List.cons_append, await_result, hqa, if_true, hg, hqt,
        Bool.false_eq_true, if_false]
      exact (ih hrest).2
    | qfail =>
      simp only [List.cons_append, await_result, hqa, if_true, hg, hqt,
        Bool.false_eq_true, if_false]
      exact (ih hrest).2

/-- C2 witness: the worker computes `"Processed: hello"` for task
`"hello"`; after one empty live slice the read returns it. -/
theorem await_result_returns_worker_result_witness :
    simple_exec tsk0 = ExecOutcome.ok (processed_result tsk0) ∧
    ((simple_worker_loop simple_exec [some tsk0]).1 = [processed_result tsk0] ∧
      await_result none 0
        ([pollLive] ++ Poll.mk true (GetOutcome.got (processed_result tsk0)) 3 :: []) =
        some (some (processed_result tsk0))) :=
  ⟨by decide,
    await_result_returns_worker_result simple_exec tsk0 (processed_result tsk0)
      none 0 (Poll.mk true (GetOutcome.got (processed_result tsk0)) 3) []
      rfl rfl rfl [pollLive] (by decide)⟩

/-- C8: with a caller-supplied timeout, once a live poll slice comes back
empty with the deadline already exceeded — before any result arrived and
before any dead observation — `await_result` returns `(handle, None)`,
the same observable outcome as worker death. -/
theorem await_result_timeout_returns_none (t start : Nat) (p : Poll)
    (rest : List Poll) (hpa : p.alive = true) (hpg : isGot p.get = false)
    (htm : pollTimesOut (some t) start p = true) :
    ∀ pre : List Poll,
      (∀ q ∈ pre, q.alive = true ∧ isGot q.get = false ∧
        pollTimesOut (some t) start q = false) →
      await_result (some t) start (pre ++ p :: rest) = some none := by
  intro pre
  induction pre with
  | nil =>
    intro _
    cases hg : p.get with
    | got r => rw [hg] at hpg; simp [isGot] at hpg
    | empty => simp [await_result, hpa, hg, htm]
    | qfail => simp [await_result, hpa, hg, htm]
  | cons q pre ih =>
    intro hpre
    have hq := hpre q (by simp)
    have hrest : ∀ x ∈ pre, x.alive = true ∧ isGot x.get = false ∧
        pollTimesOut (some t) start x = false :=
      fun x hx => hpre x (by simp [hx])
    obtain ⟨hqa, hqg, hqt⟩ := hq
    cases hg : q.get with
    | got r => rw [hg] at hqg; simp [isGot] at hqg
    | empty =>
      simp only [List.cons_append, await_result, hqa, if_true, hg, hqt,
        Bool.false_eq_true, if_false]
      exact ih hrest
    | qfail =>
      simp only [List.cons_append, await_result, hqa, if_true, hg, hqt,
        Bool.false_eq_true, if_false]
      exact ih hrest

/-- C8 witness: timeout 2 against a clock reading 10 on the first empty
slice after one non-expired empty slice. -/
theorem await_result_timeout_returns_none_witness :
    Poll.alive (Poll.mk true GetOutcome.empty 10) = true ∧
    pollTimesOut (some 2) 0 (Poll.mk true GetOutcome.empty 10) = true ∧
    await_result (some 2) 0 ([pollLive] ++ Poll.mk true GetOutcome.empty 10 :: []) =
      some none :=
  ⟨by decide, by decide,
    await_result_timeout_returns_none 2 0 (Poll.mk true GetOutcome.empty 10) []
      rfl (by decide) (by decide) [pollLive] (by decide)⟩

/-- C10: the loop guard `while worker.process.is_alive()` runs before any
queue read, so a call that finds the process already dead returns
`(handle, None)` on its first poll — whatever the bounded read would have
produced and whatever later slices hold — and in particular a result the
worker pushed before dying is not returned by that call. -/
theorem await_result_dead_skips_queue (timeout : Option Nat) (start : Nat)
    (p : Poll) (ps : List Poll) (hp : p.alive = false) :
    await_result timeout start (p :: ps) = some none ∧
    ∀ r : String,
      await_result timeout start ({ p with get := GetOutcome.got r } :: ps) =
        some none := by
  refine ⟨by simp [await_result, hp], fun r => by simp [await_result, hp]⟩

/-- C10 witness: the dead poll in `pollDead` carries a queued result,
which the call ignores. -/
theorem await_result_dead_skips_queue_witness :
    pollDead.alive = false ∧
    (await_result none 0 (pollDead :: [pollLive]) = some none ∧
      ∀ r : String,
        await_result none 0 ({ pollDead with get := GetOutcome.got r } :: [pollLive]) =
          some none) :=
  ⟨by decide, await_result_dead_skips_queue none 0 pollDead [pollLive] (by decide)⟩

/-- C9 counterexample: a failure of the queue primitive inside
`await_result`'s bounded read does NOT propagate out of the call — the
bare `except Exception:` catches it.  On the concrete schedule whose
first live slice has the queue primitive fail, the call returns normally
with the next slice's result, and the run is indistinguishable from one
whose first slice merely found the queue empty: the failure is silently
swallowed, contradicting the claim that queue-primitive failures
propagate as exceptions out of the supervisor's operations. -/
theorem await_result_swallows_queue_failure :
    await_result none 0
        [Poll.mk true GetOutcome.qfail 0, Poll.mk true (GetOutcome.got ("late")) 1] =
      some (some ("late")) ∧
    await_result none 0
        [Poll.mk true GetOutcome.qfail 0, Poll.mk true (GetOutcome.got ("late")) 1] =
      await_result none 0
        [Poll.mk true GetOutcome.empty 0, Poll.mk true (GetOutcome.got ("late")) 1] :=
  ⟨rfl, rfl⟩

/-- C9 (amended): no task-level failure in the worker raises inside the
supervisor — a non-interruption exception during task execution is
converted by the worker loop into an error-tagged Result on the Result
channel and the loop continues; and a failure of the queue primitive
during `await_result`'s bounded read is caught by the blanket
`except Exception:` handler and treated exactly like an empty poll slice
(it does not propagate out of `await_result`; among the supervisor's
operations only the queue calls outside that handler, as in `send_task`'s
put, would let a queue failure escape). -/
theorem task_failures_via_result_channel (exec : String → ExecOutcome)
    (timeout : Option Nat) (start : Nat) :
    (∀ t rest m, exec t = ExecOutcome.exn m →
      simple_worker_loop exec (some t :: rest) =
        (("Error: " ++ m) :: (simple_worker_loop exec rest).1,
          (simple_worker_loop exec rest).2)) ∧
    (∀ (p : Poll) (ps : List Poll), p.alive = true → p.get = GetOutcome.qfail →
      await_result timeout start (p :: ps) =
        await_result timeout start ({ p with get := GetOutcome.empty } :: ps)) := by
  constructor
  · intro t rest m he
    simp [simple_worker_loop, he]
  · intro p ps hpa hpg
    simp [await_result, hpa, hpg, pollTimesOut]

/-- C9 witness: the failing task `"boom"` becomes the error-tagged result
`"Error: boom"`, and a queue-primitive failure slice is interchangeable
with an empty slice. -/
theorem task_failures_via_result_channel_witness :
    mixed_exec ("boom") = ExecOutcome.exn ("boom") ∧
    simple_worker_loop mixed_exec (some ("boom") :: [some ("x")]) =
      (("Error: " ++ "boom") :: (simple_worker_loop mixed_exec [some ("x")]).1,
        (simple_worker_loop mixed_exec [some ("x")]).2) ∧
    await_result none 0 (Poll.mk true GetOutcome.qfail 0 :: [pollDead]) =
      await_result none 0 (Poll.mk true GetOutcome.empty 0 :: [pollDead]) :=
  ⟨by decide,
    (task_failures_via_result_channel mixed_exec none 0).1 ("boom") [some ("x")]
      ("boom") (by decide),
    (task_failures_via_result_channel mixed_exec none 0).2
      (Poll.mk true GetOutcome.qfail 0) [pollDead] rfl rfl⟩

/-- C3: `send_task` on a handle whose process is dead first builds a
replacement handle (fresh process, fresh queues, same worker entry
point), then enqueues the task on the new inbound queue and returns the
new handle; on a handle whose process is alive it returns the same handle
with the task appended to its inbound queue. -/
theorem send_task_restarts_dead (w : WorkerHandle) (task : String) (s : MPState)
    (hwf : WFHandle s w) : send_task_restart_prop w task s := by
  obtain ⟨hp, ht, hr⟩ := hwf
  constructor
  · intro hdead
    have hdead2 : s.alive w.process = false := hdead
    have h1 : s.nextP ≠ w.process := by omega
    have h2 : s.nextQ ≠ w.task_queue := by omega
    have h3 : s.nextQ + 1 ≠ w.result_queue := by omega
    have h4 : s.nextQ + 1 ≠ s.nextQ := by omega
    simp [send_task, hdead2, create_worker, enqueue, isAlive, h1, h2, h3, h4]
  · intro halive
    have halive2 : s.alive w.process = true := halive
    refine ⟨by simp [send_task, isAlive, halive2],
      by simp [send_task, isAlive, halive2, enqueue],
      fun p => by simp [send_task, halive2, enqueue, isAlive]⟩

/-- C3 witness: the same handle against the dead state and the live
state. -/
theorem send_task_restarts_dead_witness :
    (WFHandle sD w0 ∧ send_task_restart_prop w0 tsk0 sD) ∧
    (WFHandle s0 w0 ∧ send_task_restart_prop w0 tsk0 s0) :=
  ⟨⟨by decide, send_task_restarts_dead w0 tsk0 sD (by decide)⟩,
    ⟨by decide, send_task_restarts_dead w0 tsk0 s0 (by decide)⟩⟩

/-- C5: `cancel_worker` always yields a handle bound to a fresh process
(different identifier) with new queues; an alive old process is forcibly
terminated, escalating to kill when termination does not complete within
the grace period. -/
theorem cancel_worker_fresh (w : WorkerHandle) (g : Bool) (s : MPState)
    (hwf : WFHandle s w) : cancel_worker_prop w g s := by
  obtain ⟨hp, ht, hr⟩ := hwf
  have h1 : s.nextP ≠ w.process := by omega
  have h2 : s.nextQ ≠ w.task_queue := by omega
  have h3 : s.nextQ + 1 ≠ w.result_queue := by omega
  have h4 : s.nextQ + 1 ≠ s.nextQ := by omega
  have h5 : w.process ≠ s.nextP := by omega
  cases halive : s.alive w.process with
  | false =>
    cases g <;>
      simp [cancel_worker_prop, cancel_worker, create_worker, setDead, isAlive,
        halive, h1, h2, h3, h4, h5]
  | true =>
    cases g <;>
      simp [cancel_worker_prop, cancel_worker, create_worker, setDead, isAlive,
        halive, h1, h2, h3, h4, h5]

/-- C5 witness: cancelling the live-process handle (terminate escalating
to kill) and the dead-process handle. -/
theorem cancel_worker_fresh_witness :
    (WFHandle s0 w0 ∧ cancel_worker_prop w0 false s0) ∧
    (WFHandle sD w0 ∧ cancel_worker_prop w0 true sD) :=
  ⟨⟨by decide, cancel_worker_fresh w0 false s0 (by decide)⟩,
    ⟨by decide, cancel_worker_fresh w0 true sD (by decide)⟩⟩

/-- C6: `close_worker` on a live process pushes the sentinel and waits a
bounded grace period, force-terminating on deadline miss; on an
already-dead process it performs no action and does not raise. -/
theorem close_worker_bounded (w : WorkerHandle) (g : Bool) (s : MPState) :
    close_worker_prop w g s := by
  cases halive : s.alive w.process with
  | false => cases g <;> simp [close_worker_prop, close_worker, isAlive, halive]
  | true =>
    cases g <;>
      simp [close_worker_prop, close_worker, setDead, enqueue, isAlive, halive]

/-- C6 witness: closing the live-process handle on the deadline-miss path
and closing the dead-process handle. -/
theorem close_worker_bounded_witness :
    close_worker_prop w0 false s0 ∧ close_worker_prop w0 true sD :=
  ⟨close_worker_bounded w0 false s0, close_worker_bounded w0 true sD⟩

/-- Sequential sends to a worker that is alive at the first send keep the
handle unchanged and append the tasks to its inbound queue in order. -/
theorem send_tasks_stable (ts : List String) :
    ∀ (w : WorkerHandle) (s : MPState), isAlive s w.process = true →
      (send_tasks w ts s).1 = w ∧
      isAlive (send_tasks w ts s).2 w.process = true ∧
      (send_tasks w ts s).2.queues w.task_queue =
        s.queues w.task_queue ++ ts.map some := by
  induction ts with
  | nil => intro w s ha; exact ⟨rfl, ha, by simp [send_tasks]⟩
  | cons t ts ih =>
    intro w s ha
    have hsend : send_task w t s = (w, enqueue w.task_queue (some t) s) := by
      simp [send_task, ha]
    have ha2 : isAlive (enqueue w.task_queue (some t) s) w.process = true := ha
    obtain ⟨h1, h2, h3⟩ := ih w (enqueue w.task_queue (some t) s) ha2
    have key : send_tasks w (t :: ts) s =
        send_tasks w ts (enqueue w.task_queue (some t) s) := by
      simp only [send_tasks, hsend]
    rw [key, h3]
    refine ⟨h1, h2, ?_⟩
    simp [enqueue]

/-- The worker loop over an all-task trace, uninterrupted, pushes the
processed results in trace order and ends up blocked on the next get. -/
theorem simple_worker_loop_map_exec (ts : List String) :
    simple_worker_loop simple_exec (ts.map some) =
      (ts.map processed_result, WorkerExit.blocked) := by
  induction ts with
  | nil => rfl
  | cons t ts ih => simp [simple_worker_loop, simple_exec, ih]

/-- Draining a list of queued results one `await_result` at a time yields
them all, in queue order. -/
theorem drain_map (rs : List String) : drain rs.length rs = (rs.map some, []) := by
  induction rs with
  | nil => rfl
  | cons r rs ih => simp [drain, ih]

/-- C4: N tasks sent by `send_task` without intervening awaits to a
worker that stays alive keep the same handle and line up on the inbound
queue in submission order; the worker loop then pushes the N processed
results to the outbound queue in that order; N `await_result` calls drain
them in that same order (each call returning the queue head, as the final
conjunct shows on the translated loop). -/
theorem fifo_order (w : WorkerHandle) (s : MPState) (ts : List String)
    (ha : isAlive s w.process = true) :
    (send_tasks w ts s).1 = w ∧
    (send_tasks w ts s).2.queues w.task_queue =
      s.queues w.task_queue ++ ts.map some ∧
    simple_worker_loop simple_exec (ts.map some) =
      (ts.map processed_result, WorkerExit.blocked) ∧
    drain ts.length (ts.map processed_result) =
      (ts.map (fun t => some (processed_result t)), []) ∧
    ∀ (r : String) (n : Nat),
      await_result none 0 [Poll.mk true (GetOutcome.got r) n] = some (some r) := by
  obtain ⟨h1, _, h3⟩ := send_tasks_stable ts w s ha
  refine ⟨h1, h3, simple_worker_loop_map_exec ts, ?_, fun r n => rfl⟩
  have hd := drain_map (ts.map processed_result)
  rw [List.length_map] at hd
  simpa [List.map_map, Function.comp] using hd

/-- C4 witness: three tasks sent to the live worker. -/
theorem fifo_order_witness :
    isAlive s0 w0.process = true ∧
    ((send_tasks w0 [("a"), ("b"), ("c")] s0).1 = w0 ∧
      (send_tasks w0 [("a"), ("b"), ("c")] s0).2.queues w0.task_queue =
        s0.queues w0.task_queue ++ [("a"), ("b"), ("c")].map some ∧
      simple_worker_loop simple_exec ([("a"), ("b"), ("c")].map some) =
        ([("a"), ("b"), ("c")].map processed_result, WorkerExit.blocked) ∧
      drain [("a"), ("b"), ("c")].length ([("a"), ("b"), ("c")].map processed_result) =
        ([("a"), ("b"), ("c")].map (fun t => some (processed_result t)), []) ∧
      ∀ (r : String) (n : Nat),
        await_result none 0 [Poll.mk true (GetOutcome.got r) n] = some (some r)) :=
  ⟨by decide, fifo_order w0 s0 [("a"), ("b"), ("c")] (by decide)⟩

end MultiprocessWorker
